import Mathlib

/-!
Verification of the offline inspection PWA (`app.js`) against its
natural-language specification.

The JavaScript data objects are embedded shallowly:
* a JS object field that may be absent is an `Option`;
* JS maps keyed by item id (`inspection.responses`, `inspection.answers`)
  are association lists `List (String × Response)`;
* `x ?? y` (nullish coalescing) on optional strings is `Option.orElse`
  (`<|>`), and `x || ""` on an optional string is `Option.getD` with `""`
  (an empty string is falsy, but `"" || ""` is `""` again, so `getD ""`
  agrees with the JS value in every case);
* millimetre geometry in the PDF generator is embedded in integer tenths
  of a millimetre (every constant in the source is an exact multiple of
  0.1 mm, so the scaling by 10 is exact: `4.2` becomes `42`, `H = 297`
  becomes `2970`); jsPDF uses binary floats, but no rounding is relevant
  at the magnitudes involved;
* host functions of the environment (jsPDF `splitTextToSize`,
  `getTextWidth`) are parameters of the embedding.
-/

namespace InspectionApp

/-- A stored response record.  Current-schema records use `result`/`comment`,
legacy records used `status`/`notes`; a JS object can carry any subset, so
every field is optional.  `photos` is the stored photo-slot array
(data-URL strings, `""` = empty slot). -/
structure Response where
  result : Option String := none
  status : Option String := none
  comment : Option String := none
  notes : Option String := none
  photos : List String := []
deriving DecidableEq

structure Item where
  id : String
  text : String := ""
  label : Option String := none
deriving DecidableEq

structure Sect where
  id : String := ""
  title : String := ""
  items : List Item := []
deriving DecidableEq

structure Template where
  sections : List Sect := []
deriving DecidableEq

/-- An inspection record as stored in IndexedDB.  `answers` is the alternate
top-level storage key tolerated by the PDF generator's fallback lookup. -/
structure Inspection where
  id : Option String := none
  siteName : Option String := none
  inspectorName : Option String := none
  createdAt : Option String := none
  updatedAt : Option String := none
  generalNotes : Option String := none
  responses : List (String × Response) := []
  answers : List (String × Response) := []
deriving DecidableEq

/-- `m?.[k]` on an association-list map. -/
def findResp (m : List (String × Response)) (k : String) : Option Response :=
  (m.find? (fun p => p.1 == k)).map Prod.snd

/-- `blankResponses(template)` in `app.js`: one blank response per item. -/
def blankResponse : Response :=
  { result := some "", comment := some "", photos := ["", "", "", ""] }

def blankResponses (t : Template) : List (String × Response) :=
  t.sections.foldl
    (fun acc sec => sec.items.foldl (fun acc item => acc ++ [(item.id, blankResponse)]) acc) []

/-! ### Aggregation engine (`computeOverall`, app.js lines 147-162) -/

/-- `inspection.responses?.[item.id]?.result || ""`. -/
def resultOf (ins : Inspection) (itemId : String) : String :=
  (((findResp ins.responses itemId).bind Response.result).getD "")

inductive Bucket
  | pass | fail | na | empty
deriving DecidableEq

/-- The classification chain of `computeOverall`:
`if r === "PASS" ... else if r === "FAIL" ... else if r === "NA" ... else empty`. -/
def bucketOf (r : String) : Bucket :=
  if r = "PASS" then .pass
  else if r = "FAIL" then .fail
  else if r = "NA" then .na
  else .empty

structure Counts where
  pass : Nat := 0
  fail : Nat := 0
  na : Nat := 0
  empty : Nat := 0
deriving DecidableEq

def bumpCounts (c : Counts) (r : String) : Counts :=
  match bucketOf r with
  | .pass => { c with pass := c.pass + 1 }
  | .fail => { c with fail := c.fail + 1 }
  | .na => { c with na := c.na + 1 }
  | .empty => { c with empty := c.empty + 1 }

def countsFor (ins : Inspection) (tmpl : Template) : Counts :=
  tmpl.sections.foldl
    (fun c sec => sec.items.foldl (fun c item => bumpCounts c (resultOf ins item.id)) c)
    {}

structure Summary where
  overall : String
  pass : Nat
  fail : Nat
  na : Nat
  empty : Nat
deriving DecidableEq

/-- `computeOverall(inspection, template)`:
`overall = "IN PROGRESS"; if(fail > 0) overall = "FAIL";
else if(pass > 0 && empty === 0) overall = "PASS";`. -/
def computeOverall (ins : Inspection) (tmpl : Template) : Summary :=
  let c := countsFor ins tmpl
  let overall :=
    if c.fail > 0 then "FAIL"
    else if c.pass > 0 && c.empty == 0 then "PASS"
    else "IN PROGRESS"
  ⟨overall, c.pass, c.fail, c.na, c.empty⟩

/-- Total number of items defined by a template. -/
def totalItems (tmpl : Template) : Nat :=
  (tmpl.sections.map (fun s => s.items.length)).sum

/-! ### Concrete fixtures (used by witnesses) -/

/-- Template with one section of two items, as in the spec's test scenarios. -/
def tmpl2 : Template :=
  { sections := [{ id := "s1", title := "Section 1",
                   items := [{ id := "item1" }, { id := "item2" }] }] }

/-- Inspection on `tmpl2` with item1 = PASS and item2 unanswered. -/
def insPassUnset : Inspection :=
  { responses := [("item1", { result := some "PASS", comment := some "",
                              photos := ["", "", "", ""] }),
                  ("item2", blankResponse)] }

/-! ### Counting helper lemmas -/

def countsSum (c : Counts) : Nat := c.pass + c.fail + c.na + c.empty

lemma countsSum_bump (c : Counts) (r : String) :
    countsSum (bumpCounts c r) = countsSum c + 1 := by
  unfold bumpCounts countsSum
  cases bucketOf r <;> simp <;> omega

lemma countsSum_foldItems (ins : Inspection) (items : List Item) (c : Counts) :
    countsSum (items.foldl (fun c item => bumpCounts c (resultOf ins item.id)) c) =
      countsSum c + items.length := by
  induction items generalizing c with
  | nil => simp
  | cons i rest ih =>
      simp only [List.foldl_cons, List.length_cons, ih, countsSum_bump]
      omega

lemma countsSum_foldSections (ins : Inspection) (secs : List Sect) (c : Counts) :
    countsSum (secs.foldl
      (fun c sec => sec.items.foldl (fun c item => bumpCounts c (resultOf ins item.id)) c) c) =
      countsSum c + (secs.map (fun s => s.items.length)).sum := by
  induction secs generalizing c with
  | nil => simp
  | cons s rest ih =>
      simp only [List.foldl_cons, List.map_cons, List.sum_cons, ih, countsSum_foldItems]
      omega

lemma countsFor_sum (ins : Inspection) (tmpl : Template) :
    countsSum (countsFor ins tmpl) = totalItems tmpl := by
  unfold countsFor totalItems
  rw [countsSum_foldSections]
  simp [countsSum]

/-- Claim C1: `computeOverall` derives the overall status by the priority rule,
first match wins: positive FAIL count gives overall `FAIL`; otherwise positive
PASS count with zero EMPTY count gives `PASS`; otherwise the overall is the
in-progress status (spelled `"IN PROGRESS"` in the source).  In particular an
inspection with zero PASS and zero FAIL (for example all answered items NA)
is in progress, never `PASS`. -/
theorem computeOverall_priority (ins : Inspection) (tmpl : Template) :
    (0 < (computeOverall ins tmpl).fail → (computeOverall ins tmpl).overall = "FAIL") ∧
    ((computeOverall ins tmpl).fail = 0 → 0 < (computeOverall ins tmpl).pass →
      (computeOverall ins tmpl).empty = 0 → (computeOverall ins tmpl).overall = "PASS") ∧
    ((computeOverall ins tmpl).fail = 0 →
      ((computeOverall ins tmpl).pass = 0 ∨ 0 < (computeOverall ins tmpl).empty) →
      (computeOverall ins tmpl).overall = "IN PROGRESS") ∧
    ((computeOverall ins tmpl).fail = 0 → (computeOverall ins tmpl).pass = 0 →
      (computeOverall ins tmpl).overall = "IN PROGRESS") := by
  refine ⟨?_, ?_, ?_, ?_⟩ <;> intros <;> simp_all [computeOverall]
  all_goals omega

/-- Witness for C1 at the spec scenario: item1 = PASS, item2 unset gives
zero FAIL, one EMPTY, and the overall is in progress. -/
theorem computeOverall_priority_witness :
    (computeOverall insPassUnset tmpl2).fail = 0 ∧
      0 < (computeOverall insPassUnset tmpl2).empty ∧
      (computeOverall insPassUnset tmpl2).overall = "IN PROGRESS" :=
  ⟨by decide, by decide,
    (computeOverall_priority insPassUnset tmpl2).2.2.1 (by decide) (Or.inr (by decide))⟩

/-- Claim C2: every item defined by the template is classified into exactly one
of the four buckets, so the four counts sum to the total item count, and an
item id with no entry in the response map is classified EMPTY. -/
theorem computeOverall_partition (ins : Inspection) (tmpl : Template) :
    (computeOverall ins tmpl).pass + (computeOverall ins tmpl).fail +
        (computeOverall ins tmpl).na + (computeOverall ins tmpl).empty = totalItems tmpl ∧
    (∀ itemId, findResp ins.responses itemId = none →
      bucketOf (resultOf ins itemId) = Bucket.empty) := by
  constructor
  · have h := countsFor_sum ins tmpl
    simpa [computeOverall, countsSum] using h
  · intro itemId h
    simp [resultOf, h, bucketOf]

/-- Witness for C2: on the concrete fixture the counts sum to the template's
two items, and the absent id "missing" is classified EMPTY. -/
theorem computeOverall_partition_witness :
    (computeOverall insPassUnset tmpl2).pass + (computeOverall insPassUnset tmpl2).fail +
        (computeOverall insPassUnset tmpl2).na + (computeOverall insPassUnset tmpl2).empty =
        totalItems tmpl2 ∧
      bucketOf (resultOf insPassUnset "missing") = Bucket.empty :=
  ⟨(computeOverall_partition insPassUnset tmpl2).1,
    (computeOverall_partition insPassUnset tmpl2).2 "missing" (by decide)⟩

/-! ### JS string primitives

`toLowerCase`, `trim` and the regex class `\s` are host-string operations;
they are embedded structurally over the character list so that concrete
instances evaluate in the kernel.  All strings the program feeds them are
ASCII, where these definitions agree with the JS semantics. -/

/-- JS `toLowerCase` (ASCII range). -/
def lowerStr (s : String) : String := String.mk (s.data.map Char.toLower)

/-- The JS regex class matching whitespace (also the set removed by `String.prototype.trim`):
space, tab, line terminators, form/vertical feed, and the Unicode space
separators (NBSP, Ogham space, en/em spaces, line/paragraph separator,
narrow NBSP, medium mathematical space, ideographic space, BOM). -/
def isJsSpace (c : Char) : Bool :=
  c == ' ' || c == '\t' || c == '\n' || c == '\r' ||
  c.toNat == 0xb || c.toNat == 0xc ||
  c.toNat == 0xa0 || c.toNat == 0x1680 ||
  (0x2000 <= c.toNat && c.toNat <= 0x200a) ||
  c.toNat == 0x2028 || c.toNat == 0x2029 || c.toNat == 0x202f ||
  c.toNat == 0x205f || c.toNat == 0x3000 || c.toNat == 0xfeff

/-- JS `trim`: strip leading and trailing `\s` characters. -/
def jsTrim (s : String) : String :=
  String.mk (((s.data.dropWhile (fun c => isJsSpace c)).reverse.dropWhile
    (fun c => isJsSpace c)).reverse)

/-! ### Mode B response lookup (app.js lines 600-602) -/

/-- The literal default of the Mode B item loop:
`{result:"na", comment:"", photos:["","","",""]}`. -/
def defaultRec : Response :=
  { result := some "na", comment := some "", photos := ["", "", "", ""] }

/-- `const r = ins.responses?.[item.id] || ins.answers?.[item.id] || {...}`.
A present record is a JS object, hence truthy, so `||` is first-defined-wins. -/
def lookupRec (ins : Inspection) (itemId : String) : Response :=
  match findResp ins.responses itemId with
  | some r => r
  | none =>
    match findResp ins.answers itemId with
    | some r => r
    | none => defaultRec

/-- `const st = ((r.result ?? r.status ?? "na") + "").toLowerCase()`. -/
def itemStatusOf (r : Response) : String :=
  lowerStr ((r.result <|> r.status).getD "na")

def itemStatus (ins : Inspection) (itemId : String) : String :=
  itemStatusOf (lookupRec ins itemId)

/-- `const itemNotes = safeText((r.comment ?? r.notes) || "").trim()`. -/
def itemNotesOf (r : Response) : String :=
  jsTrim ((r.comment <|> r.notes).getD "")

def itemNotes (ins : Inspection) (itemId : String) : String :=
  itemNotesOf (lookupRec ins itemId)

/-- Claim C5: the Mode B response lookup resolves in a fixed precedence
order — the whole record from `responses`, then from the alternate `answers`
key — and within a record the current `result` field before the legacy
`status` field; entirely-missing data resolves to status "na", blank notes
and four empty photo slots instead of failing. -/
theorem lookup_precedence (ins : Inspection) (itemId : String) :
    (∀ r, findResp ins.responses itemId = some r → lookupRec ins itemId = r) ∧
    (findResp ins.responses itemId = none →
      ∀ r, findResp ins.answers itemId = some r → lookupRec ins itemId = r) ∧
    (∀ r v, findResp ins.responses itemId = some r → r.result = some v →
      itemStatus ins itemId = lowerStr v) ∧
    (∀ r v, findResp ins.responses itemId = some r → r.result = none → r.status = some v →
      itemStatus ins itemId = lowerStr v) ∧
    (findResp ins.responses itemId = none → findResp ins.answers itemId = none →
      itemStatus ins itemId = "na" ∧ itemNotes ins itemId = "" ∧
        (lookupRec ins itemId).photos = ["", "", "", ""]) := by
  refine ⟨?_, ?_, ?_, ?_, ?_⟩
  · intro r h; simp [lookupRec, h]
  · intro h r h2; simp [lookupRec, h, h2]
  · intro r v h hv; simp [itemStatus, lookupRec, h, itemStatusOf, hv]
  · intro r v h hv hs; simp [itemStatus, lookupRec, h, itemStatusOf, hv, hs]
  · intro h h2
    refine ⟨?_, ?_, ?_⟩ <;>
      simp [itemStatus, itemNotes, lookupRec, h, h2, itemStatusOf, itemNotesOf, defaultRec] <;>
      decide

/-- Witness for C5: on a concrete inspection carrying only a legacy
`answers` record, the lookup falls through to it, and a fully missing id
resolves to "na" with blank notes. -/
theorem lookup_precedence_witness :
    lookupRec { answers := [("item1", { status := some "PASS" })] } "item1" =
        { status := some "PASS" } ∧
      itemStatus ({} : Inspection) "missing" = "na" :=
  ⟨(lookup_precedence { answers := [("item1", { status := some "PASS" })] } "item1").2.1
      (by decide) _ (by decide),
    ((lookup_precedence ({} : Inspection) "missing").2.2.2.2
      (by decide) (by decide)).1⟩

/-! ### Status pills (`drawStatusPills`, app.js lines 449-480) -/

structure PillSpec where
  label : String
  w : Nat
  h : Nat
  rad : Nat
  border : String
  fill : String
  txt : String
deriving DecidableEq

/-- The `pill` closure of `drawStatusPills`; `getTextWidth` is the host
text-metric function, a parameter of the embedding (tenths of a
millimetre: `padX = 3.2` is `32`, `h = 7.6` is `76`). -/
def mkPill (getTextWidth : String → Nat) (label : String) (selected : Bool) (theme : String) :
    PillSpec :=
  let padX : Nat := 32
  let w := getTextWidth label + padX * 2
  let h : Nat := 76
  { label := label, w := w, h := h, rad := h / 2,
    border := if selected then theme else "#9ca3af",
    fill := if selected then theme else "#ffffff",
    txt := if selected then "#ffffff" else "#111827" }

/-- `drawStatusPills(pdf, xRight, y, status)`: the three pills, in drawing
order Pass, Fail, N/A, with their selection flags from strict equality. -/
def drawStatusPills (getTextWidth : String → Nat) (status : String) : List PillSpec :=
  [mkPill getTextWidth "Pass" (status == "pass") "#16a34a",
   mkPill getTextWidth "Fail" (status == "fail") "#dc2626",
   mkPill getTextWidth "N/A" (status == "na") "#6b7280"]

/-- A constant host text-width function for concrete evaluations. -/
def textWidth10 : String → Nat := fun _ => 100

/-- Counterexample to C4: an unanswered item stores `result = ""`, the
lookup yields status `""` (the `?? "na"` default does not fire on an empty
string), and `drawStatusPills` then fills none of the three pills — the
N/A pill keeps its white outline fill, contradicting "defaults to N-A
whenever the string is unrecognized (including unset)". -/
theorem drawStatusPills_empty_counterexample :
    itemStatus { responses := [("item1", blankResponse)] } "item1" = "" ∧
      (drawStatusPills textWidth10 "").map PillSpec.fill =
        ["#ffffff", "#ffffff", "#ffffff"] := by
  constructor
  · decide
  · simp [drawStatusPills, mkPill]

/-- Claim C4 (amended): the three fixed pills Pass/Fail/N-A are drawn with
the matching label filled and the other two as white outlines when the
normalized status is exactly "pass", "fail" or "na"; for any other string
(including the empty string of an unanswered response) no pill is filled.
The "na" default arises only from the lookup fallback when the result and
status fields are entirely absent. -/
theorem drawStatusPills_selection (getTextWidth : String → Nat) (status : String) :
    ((drawStatusPills getTextWidth status).map PillSpec.label = ["Pass", "Fail", "N/A"]) ∧
    (status = "pass" →
      (drawStatusPills getTextWidth status).map PillSpec.fill =
        ["#16a34a", "#ffffff", "#ffffff"]) ∧
    (status = "fail" →
      (drawStatusPills getTextWidth status).map PillSpec.fill =
        ["#ffffff", "#dc2626", "#ffffff"]) ∧
    (status = "na" →
      (drawStatusPills getTextWidth status).map PillSpec.fill =
        ["#ffffff", "#ffffff", "#6b7280"]) ∧
    (status ≠ "pass" → status ≠ "fail" → status ≠ "na" →
      (drawStatusPills getTextWidth status).map PillSpec.fill =
        ["#ffffff", "#ffffff", "#ffffff"]) ∧
    (∀ (ins : Inspection) itemId,
      findResp ins.responses itemId = none → findResp ins.answers itemId = none →
      itemStatus ins itemId = "na") := by
  refine ⟨by simp [drawStatusPills, mkPill], ?_, ?_, ?_, ?_, ?_⟩
  · intro h; subst h; simp [drawStatusPills, mkPill]
  · intro h; subst h; simp [drawStatusPills, mkPill]
  · intro h; subst h; simp [drawStatusPills, mkPill]
  · intro h1 h2 h3; simp [drawStatusPills, mkPill, h1, h2, h3]
  · intro ins itemId h h2
    simp [itemStatus, lookupRec, h, h2, itemStatusOf, defaultRec]
    decide

/-- Witness for C4: at status "pass" the Pass pill is filled green and the
others stay white. -/
theorem drawStatusPills_selection_witness :
    (drawStatusPills textWidth10 "pass").map PillSpec.fill =
      ["#16a34a", "#ffffff", "#ffffff"] :=
  (drawStatusPills_selection textWidth10 "pass").2.1 rfl

/-! ### Photo grid and continuation pages (app.js lines 606-614, 665-696) -/

/-- `photos.filter(Boolean)`: drop the empty slots. -/
def nonEmptyPhotos (r : Response) : List String :=
  r.photos.filter (fun p => p != "")

/-- `const chunk = photos.slice(0, 4)`: the primary 2-column grid. -/
def photoChunk (r : Response) : List String :=
  (nonEmptyPhotos r).take 4

/-- The continuation loop `for(let off = 0; off < rest.length; off += 4)`
taking `rest.slice(off, off + 4)` each round. -/
def chunks4 : List String → List (List String)
  | [] => []
  | a :: rest => ((a :: rest).take 4) :: chunks4 (rest.drop 3)
termination_by l => l.length
decreasing_by simp [List.length_drop]; omega

/-- `if(photos.length > 4)` the remaining photos are grouped in fours. -/
def contGroups (r : Response) : List (List String) :=
  if 4 < (nonEmptyPhotos r).length then chunks4 ((nonEmptyPhotos r).drop 4) else []

/-- `a || b` on a possibly-absent string (JS falsy-or, as in
`item.label || item.id`). -/
def jsOrStr (o : Option String) (d : String) : String :=
  match o with
  | some s => if s = "" then d else s
  | none => d

/-- One continuation page: the repeated item title, the repeated status-pill
row, and up to four photos. -/
structure ContPage where
  title : String
  status : String
  photos : List String
deriving DecidableEq

/-- The continuation pages emitted for one item (each repeats
`item.label || item.id` and the status row). -/
def contPages (item : Item) (st : String) (r : Response) : List ContPage :=
  (contGroups r).map (fun g => ⟨jsOrStr item.label item.id, st, g⟩)

lemma chunks4_join : ∀ l : List String, (chunks4 l).flatten = l
  | [] => by simp [chunks4]
  | a :: rest => by
      rw [chunks4]
      simp only [List.flatten_cons, chunks4_join (rest.drop 3)]
      show a :: (rest.take 3 ++ rest.drop 3) = a :: rest
      rw [List.take_append_drop]
termination_by l => l.length
decreasing_by simp [List.length_drop]; omega

lemma chunks4_mem : ∀ l : List String, ∀ g ∈ chunks4 l, g ≠ [] ∧ g.length ≤ 4
  | [] => by simp [chunks4]
  | a :: rest => by
      rw [chunks4]
      intro g hg
      rcases List.mem_cons.mp hg with h | h
      · subst h
        refine ⟨by simp, ?_⟩
        exact List.length_take_le 4 (a :: rest)
      · exact chunks4_mem (rest.drop 3) g h
termination_by l => l.length
decreasing_by simp [List.length_drop]; omega

/-- Claim C6: with more than 4 non-empty photos, exactly the first 4 go to
the primary grid, the rest spill to continuation pages in groups of at most
4 (their concatenation is exactly the remainder, in order), every
continuation page repeats the item's title and status row, and 5 photos
give one continuation page holding one photo. -/
theorem photo_overflow (item : Item) (st : String) (r : Response)
    (h : 4 < (nonEmptyPhotos r).length) :
    photoChunk r = (nonEmptyPhotos r).take 4 ∧
    (contGroups r).flatten = (nonEmptyPhotos r).drop 4 ∧
    (∀ g ∈ contGroups r, g ≠ [] ∧ g.length ≤ 4) ∧
    (∀ p ∈ contPages item st r,
      p.title = jsOrStr item.label item.id ∧ p.status = st) ∧
    ((nonEmptyPhotos r).length = 5 →
      (photoChunk r).length = 4 ∧ (contGroups r).map List.length = [1]) := by
  refine ⟨rfl, ?_, ?_, ?_, ?_⟩
  · simp only [contGroups, if_pos h]
    exact chunks4_join _
  · simp only [contGroups, if_pos h]
    exact chunks4_mem _
  · intro p hp
    simp only [contPages, List.mem_map] at hp
    obtain ⟨g, _, rfl⟩ := hp
    exact ⟨rfl, rfl⟩
  · intro h5
    constructor
    · simp [photoChunk, List.length_take, h5]
    · have hlen : ((nonEmptyPhotos r).drop 4).length = 1 := by
        simp [List.length_drop, h5]
      obtain ⟨x, hx⟩ := List.length_eq_one.mp hlen
      simp only [contGroups, if_pos h, hx]
      rw [chunks4]
      simp [chunks4]

/-- Witness for C6 at a concrete item with 5 photos: 4 in the primary grid,
one continuation page with one photo, repeating title and status. -/
theorem photo_overflow_witness :
    (photoChunk { photos := ["p1", "p2", "p3", "p4", "p5"] }).length = 4 ∧
      (contGroups { photos := ["p1", "p2", "p3", "p4", "p5"] }).map List.length = [1] :=
  (photo_overflow { id := "item1" } "pass" { photos := ["p1", "p2", "p3", "p4", "p5"] }
    (by decide)).2.2.2.2 (by decide)

/-! ### Output filename (app.js lines 709-710) -/

/-- The character class kept by `replace(/[^a-z0-9\-_\s]/gi, "")`:
ASCII letters (the `i` flag covers both cases), digits, hyphen, underscore,
and the whitespace class. -/
def keepChar (c : Char) : Bool :=
  ('a' ≤ c && c ≤ 'z') || ('A' ≤ c && c ≤ 'Z') || ('0' ≤ c && c ≤ '9') ||
  c == '-' || c == '_' || isJsSpace c

def sanitizeSite (s : String) : String :=
  String.mk (s.data.filter keepChar)

/-- JS `slice(0, n)` (all characters involved are in the basic plane, where
UTF-16 units and characters coincide). -/
def sliceStr (s : String) (n : Nat) : String :=
  String.mk (s.data.take n)

/-- `const safeName = (ins.siteName || "Inspection")
.replace(..., "").trim().slice(0,40) || "Inspection"`. -/
def safeName (siteName : Option String) : String :=
  let base := jsOrStr siteName "Inspection"
  let s := sliceStr (jsTrim (sanitizeSite base)) 40
  if s = "" then "Inspection" else s

/-- `pdf.save(safeName + "_Inspection_Report.pdf")`. -/
def pdfFileName (ins : Inspection) : String :=
  safeName ins.siteName ++ "_Inspection_Report.pdf"

/-- Sanitization as the spec words it: keep only letters, digits, hyphen,
underscore and the space character. -/
def keepCharSpec (c : Char) : Bool :=
  c.isAlpha || c.isDigit || c == '-' || c == '_' || c == ' '

/-- Counterexample to C7: the code's regex keeps the whole JS whitespace
class, not only the space character, so the site name containing a tab is
not stripped to "ab": the tab survives into the filename, a character the
claim's sanitization would remove. -/
theorem filename_tab_counterexample :
    pdfFileName { siteName := some "a\tb" } = "a\tb_Inspection_Report.pdf" ∧
      '\t' ∈ (safeName (some "a\tb")).data ∧ keepCharSpec '\t' = false := by
  refine ⟨by decide, by decide, by decide⟩

/-- Claim C7 (amended): the Mode B artifact is named
`<sanitized-site-name>_Inspection_Report.pdf` where sanitization strips
every character outside letters/digits/hyphen/underscore/whitespace (the
regex keeps the whole whitespace class, not just the space character),
trims, caps the length at 40, and falls back to the generic name
"Inspection" when the sanitized result is empty. -/
theorem pdfFileName_sanitized (ins : Inspection) :
    (∀ c ∈ (safeName ins.siteName).data, keepChar c = true) ∧
    (safeName ins.siteName).data.length ≤ 40 ∧
    safeName ins.siteName ≠ "" ∧
    (jsTrim (sanitizeSite (jsOrStr ins.siteName "Inspection")) = "" →
      safeName ins.siteName = "Inspection") ∧
    pdfFileName ins = safeName ins.siteName ++ "_Inspection_Report.pdf" := by
  refine ⟨?_, ?_, ?_, ?_, rfl⟩
  · intro c hc
    unfold safeName at hc
    by_cases hs : sliceStr (jsTrim (sanitizeSite (jsOrStr ins.siteName "Inspection"))) 40 = ""
    · rw [if_pos hs] at hc
      fin_cases hc <;> decide
    · rw [if_neg hs] at hc
      have h1 : c ∈ (jsTrim (sanitizeSite (jsOrStr ins.siteName "Inspection"))).data :=
        List.take_subset _ _ hc
      have h2 : c ∈ (sanitizeSite (jsOrStr ins.siteName "Inspection")).data := by
        have := (List.dropWhile_sublist (l :=
          ((sanitizeSite (jsOrStr ins.siteName "Inspection")).data.dropWhile
            (fun c => isJsSpace c)).reverse) (fun c => isJsSpace c)).subset
        have h3 := List.mem_reverse.mp (this (by simpa [jsTrim] using h1))
        exact (List.dropWhile_sublist _).subset h3
      exact List.of_mem_filter h2
  · unfold safeName
    by_cases hs : sliceStr (jsTrim (sanitizeSite (jsOrStr ins.siteName "Inspection"))) 40 = ""
    · rw [if_pos hs]; decide
    · rw [if_neg hs]
      exact List.length_take_le 40 _
  · unfold safeName
    by_cases hs : sliceStr (jsTrim (sanitizeSite (jsOrStr ins.siteName "Inspection"))) 40 = ""
    · rw [if_pos hs]; decide
    · rw [if_neg hs]; exact hs
  · intro h
    simp only [safeName, h]
    decide

/-- Witness for C7 at the spec scenario: a site name of nothing but
punctuation sanitizes to the empty string, and the filename falls back to
the generic name. -/
theorem pdfFileName_sanitized_witness :
    safeName (some "!!!???") = "Inspection" ∧
      pdfFileName { siteName := some "!!!???" } = "Inspection_Inspection_Report.pdf" :=
  ⟨(pdfFileName_sanitized { siteName := some "!!!???" }).2.2.2.1 (by decide),
    by decide⟩

/-! ### Mode B page layout (app.js lines 584-663)

Page geometry `const W = 210, H = 297, M = 12` and the per-item look-ahead
`const blockH = ...; if(y + blockH > H - M){ pdf.addPage(); y = M; }`.
All lengths are in tenths of a millimetre, an exact scaling of the
source's mm constants (`4.2` is `42`, `H - M = 285` is `2850`). -/

def pageW : Nat := 2100
def pageH : Nat := 2970
def pageM : Nat := 120
def contentW : Nat := pageW - pageM * 2

/-- A wrap function stands for the host's `pdf.splitTextToSize` at the
generator's note font size: text and available width to wrapped lines. -/
abbrev WrapFn := String → Nat → List String

/-- `const noteLines = itemNotes ? splitLines(pdf, itemNotes, contentW-14) : ["-"]`. -/
def noteLinesOf (split : WrapFn) (r : Response) : List String :=
  if itemNotesOf r ≠ "" then split (itemNotesOf r) (contentW - 140) else ["-"]

/-- `const noteH = Math.max(6, noteLines.length*4.2)`. -/
def noteHOf (split : WrapFn) (r : Response) : Nat :=
  max 60 ((noteLinesOf split r).length * 42)

/-- `const hasPhotos = chunk.length > 0`. -/
def hasPhotosOf (r : Response) : Bool :=
  decide (0 < (photoChunk r).length)

/-- `rows = chunk.length <= 2 ? 1 : 2;
photosH = hasPhotos ? rows*photoBoxH + (rows-1)*photoGap : 0`
with `photoBoxH = 60`, `photoGap = 6`. -/
def photosHOf (r : Response) : Nat :=
  let rows : Nat := if (photoChunk r).length ≤ 2 then 1 else 2
  if hasPhotosOf r then rows * 600 + (rows - 1) * 60 else 0

/-- `const blockH = 8 + 10 + noteH + (hasPhotos ? (8 + photosH) : 0) + 8`. -/
def blockHOf (split : WrapFn) (r : Response) : Nat :=
  80 + 100 + noteHOf split r + (if hasPhotosOf r then 80 + photosHOf r else 0) + 80

/-- The vertical advance actually performed while drawing one item block:
title `y += 8`; notes `y += noteH + 4`; photos `y += 6` then
`y += photosH + 6`; divider `y += 6`. -/
def advanceOf (split : WrapFn) (r : Response) : Nat :=
  80 + (noteHOf split r + 40) + (if hasPhotosOf r then 60 + photosHOf r + 60 else 0) + 60

/-- An item block as placed: its starting `y` and its computed `blockH`. -/
structure Placement where
  y : Nat
  blockH : Nat
deriving DecidableEq

/-- The per-item loop of one section:
`if(y + blockH > H - M){ pdf.addPage(); y = M; }` and then the block is
drawn from the resulting `y`. -/
def layoutItems (split : WrapFn) (ins : Inspection) : List Item → Nat → List Placement
  | [], _ => []
  | item :: rest, y =>
    let bH := blockHOf split (lookupRec ins item.id)
    let yPlace := if pageH - pageM < y + bH then pageM else y
    ⟨yPlace, bH⟩ ::
      layoutItems split ins rest (yPlace + advanceOf split (lookupRec ins item.id))

/-- A section page opens at `y = M`, then `y += 7` for the title and
`y += 6` after the rule, before the first item. -/
def layoutSection (split : WrapFn) (ins : Inspection) (sec : Sect) : List Placement :=
  layoutItems split ins sec.items (pageM + 70 + 60)

/-- Every computed block height over-approximates the vertical advance its
drawing actually performs, so a block that passes the look-ahead check also
finishes above the bottom margin. -/
lemma advance_le_blockH (split : WrapFn) (r : Response) :
    advanceOf split r ≤ blockHOf split r := by
  unfold advanceOf blockHOf
  by_cases h : hasPhotosOf r <;> simp [h] <;> omega

lemma layoutItems_fit (split : WrapFn) (ins : Inspection) :
    ∀ (items : List Item) (y0 : Nat), ∀ p ∈ layoutItems split ins items y0,
      p.blockH ≤ pageH - 2 * pageM → p.y + p.blockH ≤ pageH - pageM := by
  intro items
  induction items with
  | nil => intro y0 p hp; simp [layoutItems] at hp
  | cons item rest ih =>
      intro y0 p hp hb
      simp only [layoutItems] at hp
      rcases List.mem_cons.mp hp with h | h
      · by_cases hc :
          pageH - pageM < y0 + blockHOf split (lookupRec ins item.id)
        · rw [if_pos hc] at h
          subst h
          simp only at hb ⊢
          unfold pageH pageM at hb ⊢
          omega
        · rw [if_neg hc] at h
          subst h
          exact not_lt.mp hc
      · exact ih _ p h hb

/-- A note is wrapped at explicit newlines: the model of `splitTextToSize`
used for concrete evaluations (jsPDF always breaks at a newline; every
segment here is a single character, well within the column width). -/
def splitNl (l : List Char) : List (List Char) :=
  l.foldr
    (fun c acc =>
      match acc with
      | [] => [[c]]
      | g :: gs => if c = '\n' then [] :: (g :: gs) else (c :: g) :: gs)
    [[]]

def newlineWrap : WrapFn := fun s _ => (splitNl s.data).map String.mk

/-- A note of 60 one-character lines. -/
def longNote : String :=
  String.mk (((List.replicate 59 ['a', '\n']).flatten) ++ ['a'])

def overflowIns : Inspection :=
  { responses := [("i1", { result := some "na", comment := some longNote,
                           photos := ["", "", "", ""] })] }

def overflowSec : Sect :=
  { id := "s1", title := "Section 1", items := [{ id := "i1" }] }

/-- Counterexample to C3: an item whose wrapped notes give a block height of
278 mm exceeds a full page's usable height (297 - 2*12 = 273 mm).  The
look-ahead starts a new page (y = 12 mm) and then draws the block anyway,
and 12 + 278 > 285 = H - M (in tenths of a mm: 120 + 2780 > 2850): the
block begins on a page where it cannot complete. -/
theorem layout_overflow_counterexample :
    layoutSection newlineWrap overflowIns overflowSec = [⟨120, 2780⟩] ∧
      pageH - pageM < 120 + 2780 := by
  constructor
  · decide
  · decide

/-- Claim C3 (amended): in Mode B, before any part of an item's block is
drawn the renderer computes the block's full height (title, status row,
wrapped notes, photo grid) and starts a new page first when the block would
overflow the space left on the current page; consequently every item block
whose computed height fits a full page's usable height (H - 2M) completes
above the bottom margin of the page it begins on.  (A block taller than a
whole page — e.g. a 60-line note — still overflows after the forced page
break, which is what the counterexample exhibits.) -/
theorem layout_lookahead (split : WrapFn) (ins : Inspection) (sec : Sect) :
    ∀ p ∈ layoutSection split ins sec,
      p.blockH ≤ pageH - 2 * pageM → p.y + p.blockH ≤ pageH - pageM := by
  intro p hp hb
  exact layoutItems_fit split ins sec.items (pageM + 70 + 60) p hp hb

/-- Witness for C3: a one-item section with an empty note gives a block of
height 32 mm placed at y = 25 mm, and 25 + 32 ≤ 285 (in tenths of a mm:
250 + 320 ≤ 2850). -/
theorem layout_lookahead_witness :
    (⟨250, 320⟩ : Placement) ∈
        layoutSection newlineWrap insPassUnset { id := "s1", items := [{ id := "item1" }] } ∧
      250 + 320 ≤ pageH - pageM :=
  ⟨by decide,
    layout_lookahead newlineWrap insPassUnset { id := "s1", items := [{ id := "item1" }] }
      ⟨250, 320⟩ (by decide) (by decide)⟩

/-! ### Export / import (app.js lines 854-886) -/

/-- The backup payload `{ exportedAt, template, inspections }`.  An imported
document can lack `template` (then the current template is kept) or carry a
non-array `inspections` (then no inspection is touched), hence the options. -/
structure Payload where
  exportedAt : String
  template : Option Template
  inspections : Option (List Inspection)
deriving DecidableEq

/-- `btnExportAll`: `const payload = { exportedAt: nowISO(), template,
inspections: list }`. -/
def exportAll (now : String) (tmpl : Template) (list : List Inspection) : Payload :=
  ⟨now, some tmpl, some list⟩

/-- The local store: the singleton current template and the `inspections`
object store. -/
structure DB where
  template : Template
  inspections : List Inspection
deriving DecidableEq

/-- IndexedDB `put` on the `inspections` store (keyPath `"id"`): replace the
record carrying the same id, or insert. -/
def dbPutIns (l : List Inspection) (v : Inspection) : List Inspection :=
  if l.any (fun r => r.id == v.id) then
    l.map (fun r => if r.id == v.id then v else r)
  else l ++ [v]

/-- `if(ins?.id)`: the record's id field is present and truthy. -/
def hasGoodId (r : Inspection) : Bool :=
  match r.id with
  | some i => i != ""
  | none => false

def getIns (l : List Inspection) (i : String) : Option Inspection :=
  l.find? (fun r => r.id == some i)

/-- The `importFile` handler after a successful parse:
`if(data.template) await saveTemplate(data.template);
if(Array.isArray(data.inspections)) for(const ins of data.inspections)
if(ins?.id) await dbPut(STORE, ins);`. -/
def importPayload (p : Payload) (db : DB) : DB :=
  let db1 :=
    match p.template with
    | some t => { db with template := t }
    | none => db
  match p.inspections with
  | some l =>
    { db1 with inspections :=
        l.foldl (fun acc r => if hasGoodId r then dbPutIns acc r else acc) db1.inspections }
  | none => db1

lemma dbPutIns_self (l : List Inspection) (r : Inspection)
    (hmem : r ∈ l) (hnd : (l.map Inspection.id).Nodup) :
    dbPutIns l r = l := by
  unfold dbPutIns
  rw [if_pos (List.any_eq_true.mpr ⟨r, hmem, by simp⟩)]
  conv_rhs => rw [← List.map_id l]
  apply List.map_congr_left
  intro x hx
  by_cases hid : x.id = r.id
  · have hxr : x = r := List.inj_on_of_nodup_map hnd hx hmem hid
    simp [hxr]
  · simp [hid, beq_iff_eq]

lemma foldl_put_self (L : List Inspection)
    (hnd : (L.map Inspection.id).Nodup) (hgood : ∀ r ∈ L, hasGoodId r = true) :
    ∀ l : List Inspection, (∀ r ∈ l, r ∈ L) →
      l.foldl (fun acc r => if hasGoodId r then dbPutIns acc r else acc) L = L := by
  intro l
  induction l with
  | nil => intro _; simp
  | cons a rest ih =>
      intro hsub
      have ha : a ∈ L := hsub a (by simp)
      simp only [List.foldl_cons, if_pos (hgood a ha), dbPutIns_self L a ha hnd]
      exact ih (fun r hr => hsub r (by simp [hr]))

lemma foldl_put_fresh :
    ∀ (l acc : List Inspection), (∀ r ∈ l, hasGoodId r = true) →
      ((acc ++ l).map Inspection.id).Nodup →
      l.foldl (fun acc r => if hasGoodId r then dbPutIns acc r else acc) acc = acc ++ l := by
  intro l
  induction l with
  | nil => intro acc _ _; simp
  | cons a rest ih =>
      intro acc hgood hnd
      have hnotin : a.id ∉ acc.map Inspection.id := by
        have h1 : (acc.map Inspection.id ++ (a :: rest).map Inspection.id).Nodup := by
          simpa [List.map_append] using hnd
        have h2 := (List.nodup_append.mp h1).2.2
        intro hmem
        exact h2 hmem (by simp)
      have hany : (acc.any (fun r => r.id == a.id)) = false := by
        apply List.any_eq_false.mpr
        intro r hr
        simp only [beq_iff_eq]
        intro hEq
        exact hnotin (hEq ▸ List.mem_map_of_mem Inspection.id hr)
      simp only [List.foldl_cons, if_pos (hgood a (by simp))]
      rw [show dbPutIns acc a = acc ++ [a] by unfold dbPutIns; rw [hany]; simp]
      have hres := ih (acc ++ [a]) (fun r hr => hgood r (by simp [hr]))
        (by simpa [List.append_assoc] using hnd)
      simpa [List.append_assoc] using hres

/-- Claim C8: exporting produces `{exportedAt, template, inspections[]}` and
importing that same payload restores the same template and an equivalent set
of inspections (upserted by id): importing the export into the unchanged
store is the identity, importing it into an emptied store rebuilds exactly
the exported inspections and template, and a record with no (or empty) id
is skipped without failing the rest of the import. -/
theorem export_import_roundtrip :
    (∀ (now : String) (db : DB),
      (∀ r ∈ db.inspections, hasGoodId r = true) →
      (db.inspections.map Inspection.id).Nodup →
      importPayload (exportAll now db.template db.inspections) db = db) ∧
    (∀ (now : String) (db : DB) (t0 : Template),
      (∀ r ∈ db.inspections, hasGoodId r = true) →
      (db.inspections.map Inspection.id).Nodup →
      importPayload (exportAll now db.template db.inspections) ⟨t0, []⟩ = db) ∧
    (∀ (p : Payload) (db : DB) (pre post : List Inspection) (r : Inspection),
      r.id = none →
      importPayload ⟨p.exportedAt, p.template, some (pre ++ r :: post)⟩ db =
        importPayload ⟨p.exportedAt, p.template, some (pre ++ post)⟩ db) := by
  refine ⟨?_, ?_, ?_⟩
  · intro now db hgood hnd
    simp only [importPayload, exportAll]
    rw [foldl_put_self db.inspections hnd hgood db.inspections (fun r hr => hr)]
  · intro now db t0 hgood hnd
    simp only [importPayload, exportAll]
    rw [show db.inspections.foldl
          (fun acc r => if hasGoodId r then dbPutIns acc r else acc) [] = [] ++ db.inspections
        from foldl_put_fresh db.inspections [] hgood (by simpa using hnd)]
    simp
  · intro p db pre post r hid
    simp only [importPayload]
    have hstep : ∀ acc : List Inspection,
        (if hasGoodId r then dbPutIns acc r else acc) = acc := by
      intro acc
      rw [if_neg]
      simp [hasGoodId, hid]
    rw [List.foldl_append, List.foldl_cons, hstep, ← List.foldl_append]

/-- Witness for C8 at a concrete one-inspection store: the round trip into
the untouched store and into an emptied store both restore it, and a
payload with an id-less record imports as if the record were absent. -/
theorem export_import_roundtrip_witness :
    importPayload
        (exportAll "2024-01-01T00:00:00Z" tmpl2 [{ id := some "ins_1", siteName := some "Site" }])
        ⟨tmpl2, [{ id := some "ins_1", siteName := some "Site" }]⟩ =
      ⟨tmpl2, [{ id := some "ins_1", siteName := some "Site" }]⟩ ∧
    importPayload
        (exportAll "2024-01-01T00:00:00Z" tmpl2 [{ id := some "ins_1", siteName := some "Site" }])
        ⟨{}, []⟩ =
      ⟨tmpl2, [{ id := some "ins_1", siteName := some "Site" }]⟩ ∧
    importPayload ⟨"2024-01-01T00:00:00Z", some tmpl2, some ([] ++ { id := none } :: [])⟩
        ⟨{}, []⟩ =
      importPayload ⟨"2024-01-01T00:00:00Z", some tmpl2, some ([] ++ [])⟩ ⟨{}, []⟩ :=
  ⟨export_import_roundtrip.1 "2024-01-01T00:00:00Z"
      ⟨tmpl2, [{ id := some "ins_1", siteName := some "Site" }]⟩ (by decide) (by simp),
    export_import_roundtrip.2.1 "2024-01-01T00:00:00Z"
      ⟨tmpl2, [{ id := some "ins_1", siteName := some "Site" }]⟩ {} (by decide) (by simp),
    export_import_roundtrip.2.2 ⟨"2024-01-01T00:00:00Z", some tmpl2, none⟩ ⟨{}, []⟩
      [] [] { id := none } rfl⟩

/-! ### Template save validation (app.js lines 834-844) -/

/-- A parsed JSON document (the result of `JSON.parse`). -/
inductive Json where
  | jnull
  | jbool (b : Bool)
  | jnum (n : Int)
  | jstr (s : String)
  | jarr (elems : List Json)
  | jobj (fields : List (String × Json))

/-- `t.sections`: `undefined` (`none`) when `t` is not an object or lacks
the field. -/
def jget : Json → String → Option Json
  | .jobj fields, k => (fields.find? (fun p => p.1 == k)).map Prod.snd
  | _, _ => none

/-- `Array.isArray(v)`. -/
def jisArray : Json → Bool
  | .jarr _ => true
  | _ => false

/-- JS truthiness, for `!t.sections`. -/
def jtruthy : Json → Bool
  | .jnull => false
  | .jbool b => b
  | .jnum n => n != 0
  | .jstr s => s != ""
  | .jarr _ => true
  | .jobj _ => true

/-- The singleton template store (key `"current"`); `none` = nothing saved. -/
structure TmplStore where
  current : Option Json := none

/-- The `btnSaveTemplate` click handler over the parse result of the editor
text: `JSON.parse` failure or `!t.sections || !Array.isArray(t.sections)`
throws into the `catch` (an alert, no write); otherwise `saveTemplate(t)`
overwrites the store.  The Bool reports whether a save happened. -/
def btnSaveTemplate (parsed : Except String Json) (store : TmplStore) :
    TmplStore × Bool :=
  match parsed with
  | .error _ => (store, false)
  | .ok t =>
    match jget t "sections" with
    | none => (store, false)
    | some s =>
      if jtruthy s && jisArray s then ({ current := some t }, true)
      else (store, false)

/-- Claim C9: saving a template rejects malformed JSON and any document
whose `sections` is missing or not an array, leaving the stored template
unchanged with no write; a document with an array `sections` is saved. -/
theorem template_save_validation (parsed : Except String Json) (store : TmplStore) :
    (∀ e, parsed = .error e → btnSaveTemplate parsed store = (store, false)) ∧
    (∀ t, parsed = .ok t → jget t "sections" = none →
      btnSaveTemplate parsed store = (store, false)) ∧
    (∀ t s, parsed = .ok t → jget t "sections" = some s → jisArray s = false →
      btnSaveTemplate parsed store = (store, false)) ∧
    (∀ t l, parsed = .ok t → jget t "sections" = some (.jarr l) →
      btnSaveTemplate parsed store = (⟨some t⟩, true)) := by
  refine ⟨?_, ?_, ?_, ?_⟩
  · intro e h; subst h; rfl
  · intro t h hs; subst h; simp [btnSaveTemplate, hs]
  · intro t s h hs hna; subst h; simp [btnSaveTemplate, hs, hna]
  · intro t l h hs; subst h; simp [btnSaveTemplate, hs, jtruthy, jisArray]

/-- Witness for C9: a parse error and a document whose `sections` is a
number both leave a previously saved template untouched and unsaved. -/
theorem template_save_validation_witness :
    btnSaveTemplate (.error "SyntaxError: Unexpected token")
        ⟨some (Json.jobj [("sections", Json.jarr [])])⟩ =
      (⟨some (Json.jobj [("sections", Json.jarr [])])⟩, false) ∧
    btnSaveTemplate (.ok (Json.jobj [("sections", Json.jnum 3)]))
        ⟨some (Json.jobj [("sections", Json.jarr [])])⟩ =
      (⟨some (Json.jobj [("sections", Json.jarr [])])⟩, false) :=
  ⟨(template_save_validation (.error "SyntaxError: Unexpected token")
      ⟨some (Json.jobj [("sections", Json.jarr [])])⟩).1 _ rfl,
    (template_save_validation (.ok (Json.jobj [("sections", Json.jnum 3)]))
      ⟨some (Json.jobj [("sections", Json.jarr [])])⟩).2.2.1 _ (Json.jnum 3) rfl rfl rfl⟩

/-! ### Mode B cover summary counts (app.js lines 515-527) -/

/-- `const stRaw = ins.responses?.[it.id]?.result ??
ins.responses?.[it.id]?.status ?? ins.answers?.[it.id]?.status ?? "na"`. -/
def pdfStRaw (ins : Inspection) (itemId : String) : String :=
  (((findResp ins.responses itemId).bind Response.result) <|>
   ((findResp ins.responses itemId).bind Response.status) <|>
   ((findResp ins.answers itemId).bind Response.status)).getD "na"

/-- `const st = ("" + stRaw).toLowerCase()`. -/
def pdfSt (ins : Inspection) (itemId : String) : String :=
  lowerStr (pdfStRaw ins itemId)

structure PdfCounts where
  pass : Nat := 0
  fail : Nat := 0
  na : Nat := 0
deriving DecidableEq

/-- `if(st==="pass") pass++; else if(st==="fail") fail++; else na++`. -/
def pdfBump (c : PdfCounts) (st : String) : PdfCounts :=
  if st = "pass" then { c with pass := c.pass + 1 }
  else if st = "fail" then { c with fail := c.fail + 1 }
  else { c with na := c.na + 1 }

/-- The cover-page summary counters of `generateProfessionalPdf`. -/
def pdfCounts (ins : Inspection) (tmpl : Template) : PdfCounts :=
  tmpl.sections.foldl
    (fun c sec => sec.items.foldl (fun c item => pdfBump c (pdfSt ins item.id)) c) {}

/-- The claim's hypothesis at one item id: if the inspection's `responses`
map has an entry there, its `result` field is present and lies in the
canonical set. -/
def canonicalAt (ins : Inspection) (itemId : String) : Bool :=
  match findResp ins.responses itemId with
  | some r =>
    match r.result with
    | some v => decide (v = "" ∨ v = "PASS" ∨ v = "FAIL" ∨ v = "NA")
    | none => false
  | none => true

def tmplOne : Template :=
  { sections := [{ id := "s1", items := [{ id := "i1" }] }] }

/-- An inspection whose `responses` map is empty (so every `result` field
of it vacuously lies in the canonical set) but which carries a legacy
`answers` record. -/
def insLegacyAns : Inspection :=
  { answers := [("i1", { status := some "pass" })] }

/-- Counterexample to C10: with an empty `responses` map the claim's
hypothesis holds vacuously, yet the Mode B summary counts the legacy
`answers[i1].status = "pass"` as a pass while the aggregation engine counts
the item EMPTY, so `passB = 1 ≠ 0 = pass`. -/
theorem pdf_summary_counterexample :
    insLegacyAns.responses = [] ∧
      (pdfCounts insLegacyAns tmplOne).pass = 1 ∧
      (computeOverall insLegacyAns tmplOne).pass = 0 :=
  ⟨rfl, by decide, by decide⟩

lemma pdf_bump_rel (ins : Inspection) (itemId : String)
    (h1 : canonicalAt ins itemId = true)
    (h2 : findResp ins.answers itemId = none)
    (c : Counts) (pc : PdfCounts)
    (hp : pc.pass = c.pass) (hf : pc.fail = c.fail) (hn : pc.na = c.na + c.empty) :
    (pdfBump pc (pdfSt ins itemId)).pass = (bumpCounts c (resultOf ins itemId)).pass ∧
    (pdfBump pc (pdfSt ins itemId)).fail = (bumpCounts c (resultOf ins itemId)).fail ∧
    (pdfBump pc (pdfSt ins itemId)).na =
      (bumpCounts c (resultOf ins itemId)).na +
        (bumpCounts c (resultOf ins itemId)).empty := by
  cases hres : findResp ins.responses itemId with
  | none =>
      have hst : pdfSt ins itemId = "na" := by
        simp [pdfSt, pdfStRaw, hres, h2]
        decide
      have hr0 : resultOf ins itemId = "" := by simp [resultOf, hres]
      rw [hst, hr0]
      refine ⟨?_, ?_, ?_⟩ <;> simp [pdfBump, bumpCounts, bucketOf] <;> omega
  | some r =>
      simp only [canonicalAt, hres] at h1
      cases hv : r.result with
      | none => simp only [hv] at h1; exact absurd h1 (by simp)
      | some v =>
          simp only [hv, decide_eq_true_eq] at h1
          have hst : pdfSt ins itemId = lowerStr v := by
            simp [pdfSt, pdfStRaw, hres, hv]
          have hr0 : resultOf ins itemId = v := by simp [resultOf, hres, hv]
          rw [hst, hr0]
          rcases h1 with h | h | h | h <;> subst h <;>
            refine ⟨?_, ?_, ?_⟩ <;>
            simp [pdfBump, bumpCounts, bucketOf,
              show lowerStr "" = "" from by decide,
              show lowerStr "PASS" = "pass" from by decide,
              show lowerStr "FAIL" = "fail" from by decide,
              show lowerStr "NA" = "na" from by decide] <;>
            omega

lemma pdf_counts_rel_items (ins : Inspection) (items : List Item) :
    ∀ (c : Counts) (pc : PdfCounts),
      (∀ item ∈ items, canonicalAt ins item.id = true) →
      (∀ item ∈ items, findResp ins.answers item.id = none) →
      pc.pass = c.pass → pc.fail = c.fail → pc.na = c.na + c.empty →
      (items.foldl (fun pc item => pdfBump pc (pdfSt ins item.id)) pc).pass =
          (items.foldl (fun c item => bumpCounts c (resultOf ins item.id)) c).pass ∧
      (items.foldl (fun pc item => pdfBump pc (pdfSt ins item.id)) pc).fail =
          (items.foldl (fun c item => bumpCounts c (resultOf ins item.id)) c).fail ∧
      (items.foldl (fun pc item => pdfBump pc (pdfSt ins item.id)) pc).na =
          (items.foldl (fun c item => bumpCounts c (resultOf ins item.id)) c).na +
          (items.foldl (fun c item => bumpCounts c (resultOf ins item.id)) c).empty := by
  induction items with
  | nil => intro c pc _ _ hp hf hn; exact ⟨hp, hf, by simpa using hn⟩
  | cons a rest ih =>
      intro c pc h1 h2 hp hf hn
      simp only [List.foldl_cons]
      obtain ⟨sp, sf, sn⟩ :=
        pdf_bump_rel ins a.id (h1 a (by simp)) (h2 a (by simp)) c pc hp hf hn
      exact ih _ _ (fun i hi => h1 i (by simp [hi])) (fun i hi => h2 i (by simp [hi]))
        sp sf sn

lemma pdf_counts_rel_sections (ins : Inspection) (secs : List Sect) :
    ∀ (c : Counts) (pc : PdfCounts),
      (∀ sec ∈ secs, ∀ item ∈ sec.items, canonicalAt ins item.id = true) →
      (∀ sec ∈ secs, ∀ item ∈ sec.items, findResp ins.answers item.id = none) →
      pc.pass = c.pass → pc.fail = c.fail → pc.na = c.na + c.empty →
      (secs.foldl (fun pc sec =>
          sec.items.foldl (fun pc item => pdfBump pc (pdfSt ins item.id)) pc) pc).pass =
        (secs.foldl (fun c sec =>
          sec.items.foldl (fun c item => bumpCounts c (resultOf ins item.id)) c) c).pass ∧
      (secs.foldl (fun pc sec =>
          sec.items.foldl (fun pc item => pdfBump pc (pdfSt ins item.id)) pc) pc).fail =
        (secs.foldl (fun c sec =>
          sec.items.foldl (fun c item => bumpCounts c (resultOf ins item.id)) c) c).fail ∧
      (secs.foldl (fun pc sec =>
          sec.items.foldl (fun pc item => pdfBump pc (pdfSt ins item.id)) pc) pc).na =
        (secs.foldl (fun c sec =>
          sec.items.foldl (fun c item => bumpCounts c (resultOf ins item.id)) c) c).na +
        (secs.foldl (fun c sec =>
          sec.items.foldl (fun c item => bumpCounts c (resultOf ins item.id)) c) c).empty := by
  induction secs with
  | nil => intro c pc _ _ hp hf hn; exact ⟨hp, hf, hn⟩
  | cons s rest ih =>
      intro c pc h1 h2 hp hf hn
      simp only [List.foldl_cons]
      obtain ⟨sp, sf, sn⟩ := pdf_counts_rel_items ins s.items c pc
        (h1 s (by simp)) (h2 s (by simp)) hp hf hn
      exact ih _ _ (fun t ht => h1 t (by simp [ht])) (fun t ht => h2 t (by simp [ht]))
        sp sf sn

/-- Claim C10 (amended): when every `responses` entry for the template's
items has a `result` field in the canonical set AND the legacy top-level
`answers` storage has no entries for those items, the Mode B cover summary
relates to the aggregation engine by `passB = pass`, `failB = fail`,
`naB = na + empty` — the Mode B summary has no EMPTY bucket and folds every
unanswered item into its N/A count.  (Without the `answers` restriction the
claim fails: a legacy `answers` record can add to `passB` while the engine
counts the item EMPTY, as the counterexample shows.) -/
theorem pdf_summary_refines_engine (ins : Inspection) (tmpl : Template)
    (h1 : ∀ sec ∈ tmpl.sections, ∀ item ∈ sec.items, canonicalAt ins item.id = true)
    (h2 : ∀ sec ∈ tmpl.sections, ∀ item ∈ sec.items, findResp ins.answers item.id = none) :
    (pdfCounts ins tmpl).pass = (computeOverall ins tmpl).pass ∧
    (pdfCounts ins tmpl).fail = (computeOverall ins tmpl).fail ∧
    (pdfCounts ins tmpl).na =
      (computeOverall ins tmpl).na + (computeOverall ins tmpl).empty := by
  have h := pdf_counts_rel_sections ins tmpl.sections {} {} h1 h2 rfl rfl rfl
  simpa [pdfCounts, computeOverall, countsFor] using h

/-- Witness for C10 at the spec scenario (item1 = PASS, item2 unset, no
legacy storage): `passB = 1 = pass`, `failB = 0 = fail`, and
`naB = 1 = na + empty`. -/
theorem pdf_summary_refines_engine_witness :
    (pdfCounts insPassUnset tmpl2).pass = (computeOverall insPassUnset tmpl2).pass ∧
    (pdfCounts insPassUnset tmpl2).fail = (computeOverall insPassUnset tmpl2).fail ∧
    (pdfCounts insPassUnset tmpl2).na =
      (computeOverall insPassUnset tmpl2).na + (computeOverall insPassUnset tmpl2).empty :=
  pdf_summary_refines_engine insPassUnset tmpl2 (by decide) (by decide)

end InspectionApp
